import Mathlib

/-!
# Verification of `dna_cleaning_blueprint.py`

A shallow embedding of the DNA-purification protocol script for the
Opentrons OT-2 robot (repository `henriksson-lab/dbt2021`, file
`src/DNA_cleaning/dna_cleaning_blueprint.py`), together with theorems
about its liquid-handling primitives and the phases of its `run`
function.

Modelling conventions:
* Python floats are modelled exactly, as rationals (`ℚ`) for the
  volumes, flow rates and z-heights that the script computes with
  `+ - * /` only, and as reals (`ℝ`) where the script takes a square
  root (the dispense-height polynomial in `stepwise_dispense`).
* The robot driver's side effects are modelled as traces of `Action`
  values: each driver call the script issues becomes one element of a
  list, in program order.
* The only mutable pipette state the script touches is the pair of
  well-bottom clearances, modelled by `Clearances`; driver calls that
  can raise are modelled with a success oracle `ok : ℕ → Bool` giving
  the outcome of the n-th liquid operation.
-/

namespace DnaCleaning

/-- A well of a named labware plate, e.g. `⟨"resevoir", "A1"⟩` for
`resevoir['A1']` (the script's own spelling of "reservoir" is kept). -/
structure WellRef where
  plate : String
  well : String
deriving DecidableEq, Repr

/-- The well in row A and column `i` of a plate: `plate['A' + str(i)]`. -/
def wellA (plate : String) (i : ℕ) : WellRef :=
  ⟨plate, "A" ++ toString i⟩

/-- A pipetting location: a well plus an (x, y, z) offset in mm from the
well bottom, as produced by `well.bottom(z=...)` and `Location.move(Point(...))`. -/
structure Location where
  well : WellRef
  x : ℚ
  y : ℚ
  z : ℚ
deriving DecidableEq, Repr

/-- `well.bottom(z=h)`: the point `h` mm above the well bottom, centred. -/
def bottomZ (w : WellRef) (h : ℚ) : Location :=
  ⟨w, 0, 0, h⟩

/-- `location.move(Point(a, b, c))`: translate a location by an offset. -/
def moveLoc (l : Location) (a b c : ℚ) : Location :=
  ⟨l.well, l.x + a, l.y + b, l.z + c⟩

/-- A positional argument at a Python call site: the script is
dynamically typed, so a call can pass a well where a pipette is
expected (and one call site of `custom_mix` does). -/
inductive ArgVal where
  | pipette (name : String)
  | wellRef (w : WellRef)
  | num (q : ℚ)
deriving DecidableEq, Repr

/-- Whether an argument value is a pipette object (what
`custom_mix`'s documented first parameter requires). -/
def ArgVal.isPipette : ArgVal → Bool
  | .pipette _ => true
  | _ => false

/-- Whether an argument value is a well object (what `custom_mix`'s
documented fourth parameter requires). -/
def ArgVal.isWell : ArgVal → Bool
  | .wellRef _ => true
  | _ => false

/-- One driver call issued by the `run` function, in program order.
Calls to the script's own helpers (`custom_mix`, `stepwise_dispense`)
are recorded as calls, with their semantics modelled separately. -/
inductive Action where
  | flowAspirate (rate : ℚ)
  | flowDispense (rate : ℚ)
  | pickUpTip
  | pickUpTipFrom (rack : String) (well : String)
  | aspirate (vol : ℚ) (loc : Location) (rate : ℚ)
  | dispense (vol : ℚ) (loc : Location)
  | blowOut (loc : Location)
  | customMixCall (a1 a2 a3 a4 a5 a6 : ArgVal)
  | stepwiseDispenseCall (vol : ℚ) (well : WellRef) (steps : ℕ)
  | returnTip
  | dropTip
  | delaySeconds (s : ℚ)
deriving DecidableEq, Repr

/-- Whether an action is a plain `dispense` driver call. -/
def Action.isDispense : Action → Bool
  | .dispense _ _ => true
  | _ => false

/-- Whether an action is an `aspirate` driver call. -/
def Action.isAspirate : Action → Bool
  | .aspirate _ _ _ => true
  | _ => false

/-- Whether an action ends the use of a tip (`return_tip` or `drop_tip`). -/
def Action.isTipEnd : Action → Bool
  | .returnTip => true
  | .dropTip => true
  | _ => false

/-- The volume moved by an aspirate action (0 for anything else). -/
def Action.aspVol : Action → ℚ
  | .aspirate v _ _ => v
  | _ => 0

/-- The z-offset (mm above the well bottom) of an aspirate action's
location (0 for anything else). -/
def Action.aspLocZ : Action → ℚ
  | .aspirate _ loc _ => loc.z
  | _ => 0

/-- A `custom_mix` call matches the function's documented signature
`custom_mix(pipette, repetitions, volume, well, bottom_aspirate,
bottom_dispense)` only when the first argument is a pipette and the
fourth a well. -/
def Action.customMixWellTyped : Action → Bool
  | .customMixCall a1 _ _ a4 _ _ => a1.isPipette && a4.isWell
  | _ => true

/-! ## The pipette's well-bottom clearances and `custom_mix` -/

/-- The mutable `pipette.well_bottom_clearance` pair (mm above the well
bottom), whose driver default is 1 mm for both. -/
structure Clearances where
  aspirate : ℚ
  dispense : ℚ
deriving DecidableEq, Repr

/-- The loop body of `custom_mix`: `repetitions` iterations, each doing
one aspirate (liquid operation number `n`) then one dispense (number
`n + 1`); `ok` says whether a given liquid operation succeeds.
Returns `true` when every operation succeeded, `false` when one raised
(at which point the Python loop is abandoned by the exception). -/
def mixLoop (ok : ℕ → Bool) : ℕ → ℕ → Bool
  | _, 0 => true
  | n, r + 1 => ok n && ok (n + 1) && mixLoop ok (n + 2) r

/-- `custom_mix(pipette, repetitions, volume, well, bottom_aspirate,
bottom_dispense)`, modelled on the clearance state of the pipette.
The function first sets both clearances to the given heights, then runs
the mix loop, then sets both clearances back to 1.  There is no
try/finally: if an aspirate or dispense raises, the two restoring
assignments never execute and the exception propagates with the
clearances still overridden.  Returns the pipette's clearances after the
call together with `true` for a normal return, `false` for a raise. -/
def custom_mix (ok : ℕ → Bool) (pipette : Clearances) (repetitions : ℕ)
    (volume : ℚ) (well : WellRef) (bottom_aspirate bottom_dispense : ℚ) :
    Clearances × Bool :=
  let _ := pipette
  let _ := volume
  let _ := well
  let overridden : Clearances := ⟨bottom_aspirate, bottom_dispense⟩
  if mixLoop ok 0 repetitions then
    (⟨1, 1⟩, true)
  else
    (overridden, false)

/-! ## `stepwise_dispense` and the liquid-height estimator -/

/-- The inline dispense-height polynomial of `stepwise_dispense`:
`(-2.5+((2.5**2)+4.9+1.42*volume_added)**(1/2)) + 1`.  Python's
`x ** (1/2)` is the real square root for the nonnegative radicands that
arise here. -/
noncomputable def dispense_height (volume_added : ℝ) : ℝ :=
  (-2.5 + Real.sqrt ((2.5 : ℝ) ^ 2 + 4.9 + 1.42 * volume_added)) + 1

/-- The spec's Liquid-Height Estimator (section 4.1):
`H = (-2.5 + sqrt(2.5² + 4.9 + 1.42·V)) + 1`. -/
noncomputable def Estimator (V : ℝ) : ℝ :=
  (-2.5 + Real.sqrt ((2.5 : ℝ) ^ 2 + 4.9 + 1.42 * V)) + 1

/-- `stepwise_dispense(pipette, volume, location_dispense, steps)`:
`step_volume = volume/steps`; for `i in range(steps)` dispense
`step_volume` at height `dispense_height((i+1)*step_volume)`.
The result is the list of `(dispensed volume, dispense height)` pairs,
one per step, in order. -/
noncomputable def stepwise_dispense (volume : ℝ) (location_dispense : WellRef)
    (steps : ℕ) : List (ℝ × ℝ) :=
  let _ := location_dispense
  let step_volume := volume / (steps : ℝ)
  (List.range steps).map fun (i : ℕ) =>
    let volume_added := ((i + 1 : ℕ) : ℝ) * step_volume
    (step_volume, dispense_height volume_added)

/-! ## The pause monitor -/

/-- What one `check_pause` invocation reports to the operator. -/
inductive PauseEvent where
  | pause
  | resume
  | notice
deriving DecidableEq, Repr

/-- One invocation of `check_pause`, given the `paused` flag on entry
and the door sensor reading `door_closed`: three sequential `if`
statements (not `elif`), each re-testing the possibly-updated `paused`
flag.  Returns the `paused` flag on exit and the pause/resume/notice
events issued, in order. -/
def check_pause_step (paused door_closed : Bool) : Bool × List PauseEvent :=
  let st : Bool × List PauseEvent :=
    if !paused && !door_closed then (true, [PauseEvent.pause]) else (paused, [])
  let st : Bool × List PauseEvent :=
    if st.1 && door_closed then (false, st.2 ++ [PauseEvent.resume]) else st
  if st.1 && !door_closed then (st.1, st.2 ++ [PauseEvent.notice]) else st

/-! ## The purification sequencer: bead binding -/

/-- `columns = math.ceil(no_samples / 8)`: how many plate columns the
samples fill. -/
def columns (no_samples : ℕ) : ℕ :=
  (no_samples + 7) / 8

/-- `volBeads = vol_samples * ratio`. -/
def volBeads (vol_samples ratio : ℚ) : ℚ :=
  vol_samples * ratio

/-- The special calibration pre-mix call of the bead-binding loop, as
written in the source: `custom_mix(resevoir['A1'], 30, 15, p300, 3, 6)`.
Note the well is passed first and the pipette fourth, the reverse of
`custom_mix`'s documented parameter order. -/
def premixCall : Action :=
  .customMixCall (.wellRef (wellA "resevoir" 1)) (.num 30) (.num 15)
    (.pipette "p300") (.num 3) (.num 6)

/-- One iteration (column `i`, 1-based) of the bead-binding loop
`for i in range(1, columns+1)`. -/
def bead_binding_column (cols : ℕ) (volBeads vol_samples : ℚ) (i : ℕ) :
    List Action :=
  [Action.pickUpTip]
  ++ (if cols = 1 ∨ cols = 6 then
        [Action.flowAspirate 9, Action.flowDispense 9, premixCall]
      else [])
  ++ [Action.flowAspirate 120, Action.flowDispense 30,
      Action.aspirate (volBeads + 10) (bottomZ (wellA "resevoir" 1) 3) 1,
      Action.dispense volBeads (bottomZ (wellA "sample_plate" i) 5),
      Action.dispense 10 (bottomZ (wellA "resevoir" 1) 20),
      Action.blowOut (bottomZ (wellA "resevoir" 1) 20),
      Action.flowAspirate 60, Action.flowDispense 60,
      Action.customMixCall (.pipette "p300") (.num 15)
        (.num (vol_samples + volBeads - 10))
        (.wellRef (wellA "sample_plate" i)) (.num (6/10)) (.num 3),
      Action.dropTip]

/-- The whole bead-binding phase: the loop over columns `1..columns`,
with `columns` and `volBeads` computed from the user inputs. -/
def bead_binding (no_samples : ℕ) (vol_samples ratio : ℚ) : List Action :=
  let cols := columns no_samples
  let vb := volBeads vol_samples ratio
  ((List.range cols).map fun m => bead_binding_column cols vb vol_samples (m + 1)).flatten

/-! ## The purification sequencer: supernatant removal -/

/-- One iteration (column `i`) of the `#Remove liquid from sample.`
loop, with `v_tot = volBeads + vol_samples`. -/
def remove_liquid_column (v_tot : ℚ) (i : ℕ) : List Action :=
  [Action.pickUpTip, Action.flowAspirate 90,
   Action.aspirate (v_tot / 2 - 5) (bottomZ (wellA "sample_plate" i) 5) 1,
   Action.aspirate (v_tot / 2 - 5) (bottomZ (wellA "sample_plate" i) 2) 1,
   Action.aspirate 5 (bottomZ (wellA "sample_plate" i) (5/10)) 1,
   Action.aspirate 5 (bottomZ (wellA "sample_plate" i) (2/10)) 1,
   Action.aspirate 5 (bottomZ (wellA "sample_plate" i) (1/10)) 1,
   Action.aspirate 5 (bottomZ (wellA "sample_plate" i) 0) 1,
   Action.dropTip]

/-- The whole supernatant-removal phase: the loop over columns. -/
def remove_liquid (cols : ℕ) (v_tot : ℚ) : List Action :=
  ((List.range cols).map fun m => remove_liquid_column v_tot (m + 1)).flatten

/-! ## The purification sequencer: wash (EtOH) cycles -/

/-- One iteration (column `i`) of the add-ethanol loop
`for i in range(1, columns+1)` of a wash cycle. -/
def ethanol_add_column (i : ℕ) : List Action :=
  [Action.pickUpTipFrom "tiprack_7" ("A" ++ toString i),
   Action.aspirate 190 (bottomZ (wellA "resevoir_EtOH" i) 3) 3,
   Action.stepwiseDispenseCall 190 (wellA "sample_plate" i) 10,
   Action.returnTip]

/-- One iteration (column `k`, cycle `j` of `cleanings`) of the
remove-ethanol loop `for k in range(1, columns+1)`.  The parameter
`i` is the Python variable `i` as it stands when this loop runs: the
add-ethanol loop `for i in range(1, columns+1)` has finished, leaving
`i` at its last value `columns`, and the trash dispense reads that
stale `i` (`resevoir_trash['A' + str(i)]`) rather than `k`. -/
def ethanol_remove_column (i cleanings j k : ℕ) : List Action :=
  let center_location := bottomZ (wellA "sample_plate" k) (3/10)
  let center_location_higher := moveLoc center_location 0 0 (12/10)
  let adjusted_location1 := moveLoc center_location (3/10) (3/10) (1/10)
  let adjusted_location2 := moveLoc center_location (-(3/10)) (-(3/10)) (1/10)
  [Action.pickUpTipFrom "tiprack_7" ("A" ++ toString k),
   Action.aspirate 150 center_location_higher 1,
   Action.aspirate 30 center_location 1,
   Action.aspirate 20 adjusted_location1 1,
   Action.aspirate 20 adjusted_location2 1,
   Action.dispense 220 (bottomZ (wellA "resevoir_trash" i) 3)]
  ++ (if j < cleanings then [Action.returnTip]
      else if j = cleanings then [Action.dropTip]
      else [])

/-- One wash cycle `j` (1-based) of the loop
`for j in range(1, cleanings+1)`: flow rates, the add-ethanol loop, the
conditional settling delay, flow rates again, then the remove-ethanol
loop.  After the add-ethanol loop the Python loop variable `i` holds
`columns` (the loop runs, since `columns ≥ 1`), and the remove-ethanol
bodies receive that value. -/
def wash_cycle (cols cleanings j : ℕ) : List Action :=
  [Action.flowAspirate 60, Action.flowDispense 30]
  ++ ((List.range cols).map fun m => ethanol_add_column (m + 1)).flatten
  ++ (if cols < 4 then [Action.delaySeconds 30] else [])
  ++ [Action.flowAspirate 90, Action.flowDispense 100]
  ++ ((List.range cols).map fun m =>
        ethanol_remove_column cols cleanings j (m + 1)).flatten

/-- The whole wash phase: cycles `1..cleanings`. -/
def wash (cols cleanings : ℕ) : List Action :=
  ((List.range cleanings).map fun jm => wash_cycle cols cleanings (jm + 1)).flatten

/-! ## General list lemmas used below -/

/-- Filtering the flattening of mapped pieces filters each piece. -/
theorem filter_flatten_map {α β : Type _} (p : α → Bool) (f : β → List α)
    (l : List β) :
    ((l.map f).flatten).filter p = (l.map fun b => (f b).filter p).flatten := by
  induction l with
  | nil => rfl
  | cons b l ih => simp [List.filter_append, ih]

/-- A constant map produces a replicate. -/
theorem map_const_replicate {α β : Type _} (l : List β) (a : α) :
    (l.map fun _ => a) = List.replicate l.length a := by
  induction l with
  | nil => rfl
  | cons b l ih => simp [ih, List.replicate_succ]

/-- Flattening singleton pieces produces a replicate. -/
theorem flatten_map_singleton {α β : Type _} (l : List β) (a : α) :
    ((l.map fun _ => [a]).flatten) = List.replicate l.length a := by
  induction l with
  | nil => rfl
  | cons b l ih => simp [ih, List.replicate_succ]

/-- Flattening empty pieces produces the empty list. -/
theorem flatten_map_nil {α β : Type _} (l : List β) :
    ((l.map fun _ => ([] : List α)).flatten) = [] := by
  induction l with
  | nil => rfl
  | cons b l ih => simp [ih]

/-- The source's inline dispense-height polynomial is exactly the
spec's Estimator of section 4.1. -/
theorem dispense_height_eq_Estimator (v : ℝ) :
    dispense_height v = Estimator v := rfl

/-! ## Theorems for the claims -/

/-- C1: for sample_count = 8, sample_volume = 20, bead_ratio = 0.8 the
run has one column and computes volBeads = 16 µl, the bead-binding
trace dispenses 16 µl of beads into sample well A1, and the special
pre-mix branch is taken when the column count is 1 (and 6, e.g. 48
samples) and only then — but the pre-mix call it issues passes the
reservoir well where `custom_mix`'s documented first parameter requires
the pipette (and the pipette fourth, where a well is required), so at
runtime the call raises instead of performing the pre-mix. -/
theorem premix_call_swaps_well_and_pipette :
    columns 8 = 1 ∧
    volBeads 20 (0.8 : ℚ) = 16 ∧
    premixCall ∈ bead_binding 8 20 (0.8 : ℚ) ∧
    Action.dispense 16 (bottomZ (wellA "sample_plate" 1) 5) ∈
      bead_binding 8 20 (0.8 : ℚ) ∧
    Action.customMixWellTyped premixCall = false ∧
    premixCall ∈ bead_binding 48 20 (0.8 : ℚ) ∧
    premixCall ∉ bead_binding 20 20 (0.8 : ℚ) := by
  have hv : volBeads 20 (0.8 : ℚ) = 16 := by norm_num [volBeads]
  refine ⟨by decide, hv, ?_, ?_, by decide, ?_, ?_⟩
  · simp [bead_binding, columns, hv, bead_binding_column, List.mem_flatten]
  · simp [bead_binding, columns, hv, bead_binding_column, List.mem_flatten]
  · simp [bead_binding, columns, hv, bead_binding_column, List.mem_flatten,
      List.mem_map, List.mem_range]
    exact ⟨0, by norm_num⟩
  · simp [bead_binding, columns, hv, bead_binding_column, List.mem_flatten,
      List.mem_map, List.mem_range, premixCall]

/-- C2 (counterexample): a `custom_mix` invocation whose very first
aspirate raises exits with the clearances still at the overriding
heights 3 and 6 mm, not at the default 1 mm the claim requires on all
exit paths. -/
theorem custom_mix_no_restore_on_failure :
    (custom_mix (fun _ => false) ⟨1, 1⟩ 30 15 (wellA "resevoir" 1) 3 6).1 =
      ⟨3, 6⟩ ∧
    (custom_mix (fun _ => false) ⟨1, 1⟩ 30 15 (wellA "resevoir" 1) 3 6).1 ≠
      ⟨1, 1⟩ := by decide

/-- C2 (amended): after a `custom_mix` invocation the pipette's bottom
clearances equal the default 1 mm exactly when the invocation returned
normally; when an intermediate aspirate or dispense raised, the two
restoring assignments were skipped and the clearances remain at the
overriding values bottom_aspirate and bottom_dispense. -/
theorem custom_mix_clearances_restored_iff_no_raise (ok : ℕ → Bool)
    (pipette : Clearances) (repetitions : ℕ) (volume : ℚ) (well : WellRef)
    (bottom_aspirate bottom_dispense : ℚ) :
    (custom_mix ok pipette repetitions volume well
        bottom_aspirate bottom_dispense).1 =
      if (custom_mix ok pipette repetitions volume well
          bottom_aspirate bottom_dispense).2
      then ⟨1, 1⟩
      else ⟨bottom_aspirate, bottom_dispense⟩ := by
  unfold custom_mix
  by_cases h : mixLoop ok 0 repetitions <;> simp [h]

/-- C3 (counterexample): at vol_samples = 20, volBeads = 16 the
supernatant-removal steps for a column aspirate 46 µl in total, not the
combined bead+sample volume 36 µl the claim states. -/
theorem remove_liquid_overdraw_counterexample :
    ((remove_liquid_column (20 + 16) 1).map Action.aspVol).sum = 46 ∧
    ((remove_liquid_column (20 + 16) 1).map Action.aspVol).sum ≠ 20 + 16 := by
  norm_num [remove_liquid_column, Action.aspVol]

/-- C3 (amended): in the supernatant-removal phase, for every column
the sequencer issues exactly six aspirates whose volumes sum to
`v_tot + 10` µl (two of `v_tot/2 - 5`, then four of 5 µl), at the
strictly descending heights 5, 2, 0.5, 0.2, 0.1, 0 mm above the well
bottom. -/
theorem remove_liquid_six_step_profile (v_tot : ℚ) (i : ℕ) :
    ((remove_liquid_column v_tot i).filter Action.isAspirate).length = 6 ∧
    ((remove_liquid_column v_tot i).map Action.aspVol).sum = v_tot + 10 ∧
    ((remove_liquid_column v_tot i).filter Action.isAspirate).map
      Action.aspLocZ = [5, 2, 5/10, 2/10, 1/10, 0] ∧
    List.Pairwise (fun a b => a > b)
      (((remove_liquid_column v_tot i).filter Action.isAspirate).map
        Action.aspLocZ) := by
  refine ⟨?_, ?_, ?_, ?_⟩
  · simp [remove_liquid_column, Action.isAspirate, List.filter]
  · simp [remove_liquid_column, Action.aspVol]
    ring
  · norm_num [remove_liquid_column, Action.isAspirate, Action.aspLocZ,
      List.filter, bottomZ]
  · norm_num [remove_liquid_column, Action.isAspirate, Action.aspLocZ,
      List.filter, bottomZ]

/-- C4: in the remove-ethanol loop of a wash cycle, the single 220 µl
dispense of every column goes to the one trash well `'A' + str(columns)`
(the stale loop variable `i` of the preceding add-ethanol loop), for
every column index k and every cycle, while the four aspirates of
column k do address sample well `'A' + str(k)`; over a whole cycle the
dispenses are `columns` copies of that same trash-well dispense. -/
theorem ethanol_removal_stale_trash_index (cols cleanings j k : ℕ) :
    (ethanol_remove_column cols cleanings j k).filter Action.isDispense =
      [Action.dispense 220 (bottomZ (wellA "resevoir_trash" cols) 3)] ∧
    (ethanol_remove_column cols cleanings j k).filter Action.isAspirate =
      [Action.aspirate 150 ⟨wellA "sample_plate" k, 0, 0, 3/2⟩ 1,
       Action.aspirate 30 ⟨wellA "sample_plate" k, 0, 0, 3/10⟩ 1,
       Action.aspirate 20 ⟨wellA "sample_plate" k, 3/10, 3/10, 4/10⟩ 1,
       Action.aspirate 20 ⟨wellA "sample_plate" k, -(3/10), -(3/10), 4/10⟩ 1] ∧
    (wash_cycle cols cleanings j).filter Action.isDispense =
      List.replicate cols
        (Action.dispense 220 (bottomZ (wellA "resevoir_trash" cols) 3)) := by
  have hrem : ∀ m : ℕ,
      (ethanol_remove_column cols cleanings j m).filter Action.isDispense =
        [Action.dispense 220 (bottomZ (wellA "resevoir_trash" cols) 3)] := by
    intro m
    unfold ethanol_remove_column
    split_ifs with h1 h2 <;>
      simp [List.filter_append, Action.isDispense, List.filter]
  refine ⟨hrem k, ?_, ?_⟩
  · unfold ethanol_remove_column
    split_ifs with h1 h2 <;>
      simp [List.filter_append, Action.isAspirate, List.filter, moveLoc,
        bottomZ] <;>
      norm_num
  · unfold wash_cycle
    have hadd : ∀ m : ℕ,
        (ethanol_add_column m).filter Action.isDispense = [] := by
      intro m
      simp [ethanol_add_column, Action.isDispense, List.filter]
    simp only [List.filter_append, filter_flatten_map, hadd, hrem]
    rcases lt_or_ge cols 4 with hc | hc <;>
      simp [hc, Action.isDispense, List.filter, flatten_map_singleton,
        flatten_map_nil]

/-- C5: for every total volume V and step count S ≥ 1, the S per-step
volumes V/S dispensed by `stepwise_dispense` sum to exactly V. -/
theorem stepwise_dispense_sum_exact (volume : ℝ) (w : WellRef) (steps : ℕ)
    (hs : 1 ≤ steps) :
    ((stepwise_dispense volume w steps).map Prod.fst).sum = volume := by
  have hne : (steps : ℝ) ≠ 0 := Nat.cast_ne_zero.mpr (by omega)
  simp only [stepwise_dispense, List.map_map]
  rw [show (Prod.fst ∘ fun (i : ℕ) =>
        (volume / (steps : ℝ),
          dispense_height (((i + 1 : ℕ) : ℝ) * (volume / (steps : ℝ))))) =
      fun _ : ℕ => volume / (steps : ℝ) from rfl]
  rw [map_const_replicate, List.length_range, List.sum_replicate, nsmul_eq_mul]
  field_simp

/-- C5's theorem applied at volume 190 and step count 10 (the values of
the wash cycles' stepwise dispenses). -/
theorem stepwise_dispense_sum_exact_witness :
    1 ≤ 10 ∧
    ((stepwise_dispense 190 (wellA "sample_plate" 1) 10).map Prod.fst).sum =
      190 :=
  ⟨by norm_num,
    stepwise_dispense_sum_exact 190 (wellA "sample_plate" 1) 10 (by norm_num)⟩

/-- C6: `stepwise_dispense` with total volume V and step count S issues
exactly S dispenses, the (i+1)-th (0-indexed i) of volume V/S at height
`Estimator ((i+1) · V/S)` computed by the section-4.1 formula. -/
theorem stepwise_dispense_steps_and_heights (volume : ℝ) (w : WellRef)
    (steps : ℕ) :
    (stepwise_dispense volume w steps).length = steps ∧
    ∀ i : ℕ, i < steps →
      (stepwise_dispense volume w steps)[i]? =
        some (volume / (steps : ℝ),
          Estimator (((i : ℝ) + 1) * (volume / (steps : ℝ)))) := by
  constructor
  · simp [stepwise_dispense]
  · intro i hi
    simp [stepwise_dispense, List.getElem?_map, List.getElem?_range hi,
      dispense_height_eq_Estimator]

/-- C7: at zero cumulative volume the Estimator returns the literal
formula output `(-2.5 + sqrt(2.5² + 4.9)) + 1`, which lies strictly
between 1.8 and 1.9 mm (≈ 1.84 mm, not the rounded 1 mm margin). -/
theorem Estimator_at_zero :
    Estimator 0 = (-2.5 + Real.sqrt ((2.5 : ℝ) ^ 2 + 4.9)) + 1 ∧
    1.8 < Estimator 0 ∧ Estimator 0 < 1.9 := by
  have hrad : (2.5 : ℝ) ^ 2 + 4.9 + 1.42 * 0 = 11.15 := by norm_num
  have hsq : Real.sqrt 11.15 ^ 2 = 11.15 := Real.sq_sqrt (by norm_num)
  have hnn : (0 : ℝ) ≤ Real.sqrt 11.15 := Real.sqrt_nonneg _
  refine ⟨by norm_num [Estimator], ?_, ?_⟩
  · have h1 : (3.3 : ℝ) < Real.sqrt 11.15 := by nlinarith [hsq, hnn]
    simp only [Estimator, hrad]
    linarith
  · have h2 : Real.sqrt 11.15 < 3.4 := by nlinarith [hsq, hnn]
    simp only [Estimator, hrad]
    linarith

/-- C8: one `check_pause` invocation pauses (sets the flag, issuing one
pause) exactly when entered unpaused with the door open, resumes
(clearing the flag, issuing one resume) exactly when entered paused
with the door closed, leaves the paused state unchanged with only the
informational notice when entered paused with the door open, and does
nothing when entered unpaused with the door closed. -/
theorem check_pause_step_transitions :
    check_pause_step false false =
      (true, [PauseEvent.pause, PauseEvent.notice]) ∧
    check_pause_step true true = (false, [PauseEvent.resume]) ∧
    check_pause_step true false = (true, [PauseEvent.notice]) ∧
    check_pause_step false true = (false, []) := by decide

/-- C9: in the remove-ethanol loop, for every cycle j of 1..cleanings
and every column, the one tip-ending action is `return_tip` when
j < cleanings and `drop_tip` on the final cycle j = cleanings. -/
theorem ethanol_removal_tip_policy (i cleanings j k : ℕ)
    (hj1 : 1 ≤ j) (hj2 : j ≤ cleanings) :
    (ethanol_remove_column i cleanings j k).filter Action.isTipEnd =
      if j < cleanings then [Action.returnTip] else [Action.dropTip] := by
  have _ := hj1
  unfold ethanol_remove_column
  rcases lt_or_eq_of_le hj2 with h | h <;>
    simp [h, List.filter_append, Action.isTipEnd, List.filter]

/-- C9's theorem applied with cleanings = 3 at cycle 2 (tip returned)
and at cycle 3 (tip dropped). -/
theorem ethanol_removal_tip_policy_witness :
    1 ≤ 2 ∧ 2 ≤ 3 ∧
    ((ethanol_remove_column 3 3 2 1).filter Action.isTipEnd =
      if 2 < 3 then [Action.returnTip] else [Action.dropTip]) ∧
    ((ethanol_remove_column 3 3 3 1).filter Action.isTipEnd =
      if 3 < 3 then [Action.returnTip] else [Action.dropTip]) :=
  ⟨by norm_num, by norm_num,
    ethanol_removal_tip_policy 3 3 2 1 (by norm_num) (by norm_num),
    ethanol_removal_tip_policy 3 3 3 1 (by norm_num) (by norm_num)⟩

/-- C10: the Estimator is monotonically non-decreasing on volumes
0 ≤ V1 ≤ V2. -/
theorem Estimator_monotone (V1 V2 : ℝ) (h0 : 0 ≤ V1) (h12 : V1 ≤ V2) :
    Estimator V1 ≤ Estimator V2 := by
  have _ := h0
  unfold Estimator
  have h : Real.sqrt ((2.5 : ℝ) ^ 2 + 4.9 + 1.42 * V1) ≤
      Real.sqrt ((2.5 : ℝ) ^ 2 + 4.9 + 1.42 * V2) :=
    Real.sqrt_le_sqrt (by nlinarith)
  linarith

/-- C10's theorem applied at V1 = 0 and V2 = 190. -/
theorem Estimator_monotone_witness :
    (0 : ℝ) ≤ 0 ∧ (0 : ℝ) ≤ 190 ∧ Estimator 0 ≤ Estimator 190 :=
  ⟨le_refl 0, by norm_num, Estimator_monotone 0 190 (le_refl 0) (by norm_num)⟩

end DnaCleaning
